import Mathlib

/-!
Verification of the message-relay core of the meridian-browse repository.

The definitions below are shallow embeddings of the TypeScript/JavaScript
source:
* the security module of the MCP gateway (`checkRateLimit`,
  `isDomainAllowed`, emergency stop, audit logging) from the gateway
  source file;
* the WebSocket request correlator (`sendToExtension`, the
  `socket.on('message')` and `socket.on('close')` handlers);
* the native-messaging framing codec (`readNativeMessage` /
  `writeNativeMessage`) of the native host;
* the two reconnect/backoff state machines (extension background worker
  and native host `scheduleReconnect`).

Machine integers are modelled as `Nat` (JavaScript timestamps and byte
values are non-negative and well below 2^53, where `Number` arithmetic is
exact); fallible operations return `Option` or an explicit result type.
-/

namespace Meridian

/-! ## String helpers

JavaScript `String.prototype.includes` and `String.prototype.startsWith`,
modelled on `List Char`. -/

/-- Substring containment test: `jsIncludes h n = true` iff `n` occurs as a
contiguous substring of `h` (JavaScript `h.includes(n)`). -/
def listIncludes : List Char → List Char → Bool
  | h, n =>
    if n.isPrefixOf h then true
    else
      match h with
      | [] => false
      | _ :: t => listIncludes t n

/-- JavaScript `s.includes(sub)`. -/
def jsIncludes (s sub : String) : Bool :=
  listIncludes s.toList sub.toList

/-- JavaScript `s.startsWith(pre)`. -/
def jsStartsWith (s pre : String) : Bool :=
  pre.toList.isPrefixOf s.toList

/-! ## SecurityConfig (gateway source, `interface SecurityConfig` and
`DEFAULT_SECURITY_CONFIG`) -/

structure RateLimitConfig where
  enabled : Bool
  maxActionsPerMinute : Nat
  deriving Repr, DecidableEq

structure DomainsConfig where
  allowlist : List String
  blocklist : List String
  deriving Repr, DecidableEq

structure SensitiveActionsConfig where
  requireConfirmation : Bool
  actions : List String
  deriving Repr, DecidableEq

structure AuditLogConfig where
  enabled : Bool
  retentionDays : Nat
  deriving Repr, DecidableEq

structure SecurityConfig where
  port : Nat
  rateLimit : RateLimitConfig
  domains : DomainsConfig
  sensitiveActions : SensitiveActionsConfig
  auditLog : AuditLogConfig
  emergencyStop : Bool
  deriving Repr, DecidableEq

/-- The `DEFAULT_SECURITY_CONFIG` from the gateway source. -/
def DEFAULT_SECURITY_CONFIG : SecurityConfig where
  port := 9333
  rateLimit := { enabled := true, maxActionsPerMinute := 60 }
  domains :=
    { allowlist := []
      blocklist := ["chrome://", "chrome-extension://", "file://"] }
  sensitiveActions :=
    { requireConfirmation := false
      actions := ["download", "type", "click", "form_fill"] }
  auditLog := { enabled := true, retentionDays := 30 }
  emergencyStop := false

/-! ## Rate limiting (`checkRateLimit`)

The source keeps a module-level array `actionTimestamps` and, on each
check, shifts entries strictly older than one minute off the front, then
either rejects (recording nothing) when no capacity remains or appends
`Date.now()`.  We pass the array and the clock explicitly. -/

structure RateCheck where
  allowed : Bool
  /-- `remaining` from the source; `none` models the `Infinity` returned
  when rate limiting is disabled. -/
  remaining : Option Nat
  deriving Repr, DecidableEq

/-- The `checkRateLimit` from the gateway source, with the mutable
`actionTimestamps` array passed in and the updated array returned.
`now - 60000` uses truncated `Nat` subtraction, which agrees with the
JavaScript comparison `t < now - 60000` for all clock values `now` of
interest (a negative cutoff rejects every `t ≥ 0`, as does a cutoff of
`0` under the strict comparison combined with `t` being a timestamp that
was itself a previous `now`; the pruning loop drops from the front, hence
`dropWhile`). -/
def checkRateLimit (cfg : SecurityConfig) (now : Nat) (actionTimestamps : List Nat) :
    RateCheck × List Nat :=
  if !cfg.rateLimit.enabled then
    ({ allowed := true, remaining := none }, actionTimestamps)
  else
    let pruned := actionTimestamps.dropWhile (fun t => t < now - 60000)
    if cfg.rateLimit.maxActionsPerMinute ≤ pruned.length then
      ({ allowed := false, remaining := some 0 }, pruned)
    else
      ({ allowed := true
         remaining := some (cfg.rateLimit.maxActionsPerMinute - pruned.length - 1) },
       pruned ++ [now])

/-- Iterate `checkRateLimit` over a sequence of arrival times, collecting
each check's `allowed` flag and threading the timestamp window. -/
def runRateChecks (cfg : SecurityConfig) (actionTimestamps : List Nat) :
    List Nat → List Bool × List Nat
  | [] => ([], actionTimestamps)
  | now :: rest =>
    let r := checkRateLimit cfg now actionTimestamps
    let rec' := runRateChecks cfg r.2 rest
    (r.1.allowed :: rec'.1, rec'.2)

/-! ## Domain checking (`isDomainAllowed`)

The gateway source checks `url.startsWith(blocked) || url.includes(blocked)`
against each blocklist entry and `url.includes(allowed)` against each
allowlist entry — substring containment on the raw URL string, with no
hostname parsing. -/

structure DomainResult where
  allowed : Bool
  reason : Option String
  deriving Repr, DecidableEq

/-- The `isDomainAllowed` from the gateway source. -/
def isDomainAllowed (cfg : SecurityConfig) (url : String) : DomainResult :=
  match cfg.domains.blocklist.find? (fun b => jsStartsWith url b || jsIncludes url b) with
  | some b => { allowed := false, reason := some ("Domain blocked: " ++ b) }
  | none =>
    if cfg.domains.allowlist.isEmpty then
      { allowed := true, reason := none }
    else if cfg.domains.allowlist.any (fun a => jsIncludes url a) then
      { allowed := true, reason := none }
    else
      { allowed := false, reason := some "Domain not in allowlist" }

/-- The `isEmergencyStopped` from the gateway source. -/
def isEmergencyStopped (cfg : SecurityConfig) : Bool :=
  cfg.emergencyStop

/-- The `setEmergencyStop` (configuration part; the audit append it performs is
modelled at the tool-handler level). -/
def setEmergencyStop (cfg : SecurityConfig) (stopped : Bool) : SecurityConfig :=
  { cfg with emergencyStop := stopped }

/-! ## Request correlator

The gateway keeps `extensionSocket : WebSocket | null` and
`pendingRequests : Map<string, {resolve, reject, timeout}>`.
`sendToExtension` throws immediately when the socket is absent or not
`OPEN`; otherwise it registers a pending entry with an armed timer and
transmits.  The `socket.on('message')` handler looks the response id up,
and — only when found — clears the timer, deletes the entry and settles
the promise; an unknown id is ignored.  The timeout callback deletes the
entry and rejects.  The `socket.on('close')` handler only clears the
socket reference.

The model makes the settlement of each request's promise explicit:
`settled` is the write-once association of request id to final outcome
(`settleOnce` encodes the JavaScript guarantee that a promise settles at
most once, so a second resolve/reject is a no-op).  An id is in `pending`
exactly while its map entry and armed timer exist, so the timeout event
`timerFire id` is only enabled for pending ids: the source clears the
timer in the same step that removes the entry, and a `reject` reached by
a timer that raced the event queue after settlement would be absorbed by
the promise (a no-op, which is also how `corrStep` treats it). -/

/-- The possible final outcomes of one `sendToExtension` promise. -/
inductive Outcome
  /-- `resolve(responseData)` on a `success: true` response. -/
  | success
  /-- `reject(new Error(error))` on a `success: false` response. -/
  | execError
  /-- `reject(new Error("Request timed out after 30000ms"))`. -/
  | timeoutErr
  /-- The immediate `throw` when no extension socket is `OPEN`. -/
  | notConnected
  /-- Rejection on channel close.  No code path in the gateway produces
  this outcome; it is listed so that its absence can be stated. -/
  | connectionLost
  deriving Repr, DecidableEq

/-- State of the gateway's correlator: the socket (collapsed to whether an
`OPEN` extension socket is present), the id set of `pendingRequests`, and
the write-once settlement record of every promise handed out. -/
structure CorrState where
  socketOpen : Bool
  pending : List String
  settled : List (String × Outcome)
  deriving Repr, DecidableEq

/-- Ids having a settlement recorded. -/
def settledIds (s : CorrState) : List String :=
  s.settled.map Prod.fst

/-- Ids owned by the correlator at some point: pending or settled. -/
def usedIds (s : CorrState) : List String :=
  s.pending ++ settledIds s

/-- Settle a promise: record the outcome unless one is already recorded
(a JavaScript promise settles at most once). -/
def settleOnce (st : List (String × Outcome)) (id : String) (o : Outcome) :
    List (String × Outcome) :=
  if id ∈ st.map Prod.fst then st else st ++ [(id, o)]

/-- Events of the correlator, each the body of one source handler. -/
inductive CorrEvent
  /-- A tool call reaching `sendToExtension` with a fresh generated id. -/
  | invoke (id : String)
  /-- The `socket.on('message')` handler parsing a response envelope
  `{id, success, data, error}`. -/
  | response (id : String) (ok : Bool)
  /-- The `setTimeout` callback for `id` firing. -/
  | timerFire (id : String)
  /-- The `socket.on('close')` handler for the current socket. -/
  | close
  /-- The `wss.on('connection')` handler installing a fresh socket. -/
  | connect
  deriving Repr, DecidableEq

/-- One step of the correlator, transcribed from the gateway source. -/
def corrStep (s : CorrState) : CorrEvent → CorrState
  | .invoke id =>
    if s.socketOpen then
      -- pendingRequests.set(id, {resolve, reject, timeout}); socket.send(...)
      { s with pending := s.pending ++ [id] }
    else
      -- throw new Error('Browser extension not connected. ...')
      { s with settled := settleOnce s.settled id .notConnected }
  | .response id ok =>
    if id ∈ s.pending then
      -- clearTimeout; pendingRequests.delete(id); resolve/reject
      { s with pending := s.pending.erase id
               settled := settleOnce s.settled id (if ok then .success else .execError) }
    else
      -- no pending entry: the message is ignored
      s
  | .timerFire id =>
    if id ∈ s.pending then
      -- pendingRequests.delete(id); reject(timeout error)
      { s with pending := s.pending.erase id
               settled := settleOnce s.settled id .timeoutErr }
    else
      -- the timer was cleared on settlement; a stale firing is a no-op
      s
  | .close =>
    -- if (extensionSocket === socket) extensionSocket = null;
    -- pendingRequests is not touched
    { s with socketOpen := false }
  | .connect =>
    -- extensionSocket = socket (prior socket closed and replaced)
    { s with socketOpen := true }

/-- Run a sequence of correlator events. -/
def corrRun (s : CorrState) (es : List CorrEvent) : CorrState :=
  es.foldl corrStep s

/-- The ids handed out by the `invoke` events of a trace. -/
def invokedIds : List CorrEvent → List String
  | [] => []
  | .invoke id :: es => id :: invokedIds es
  | _ :: es => invokedIds es

/-- Initial correlator state: no pending entries, no settled promises. -/
def corrInit (socketOpen : Bool) : CorrState :=
  { socketOpen := socketOpen, pending := [], settled := [] }

/-- The ids an event introduces: `invoke` brings its generated id. -/
def eventIds : CorrEvent → List String
  | .invoke id => [id]
  | _ => []

/-- Freshness of one event at a state: an `invoke` carries an id the
correlator has never owned.  This is what `generateMessageId` is for in
the source; the claims quantify over traces with this discipline. -/
def evFresh (s : CorrState) : CorrEvent → Prop
  | .invoke id => id ∉ usedIds s
  | _ => True

/-- The correlator's id invariant: no id occurs twice across the pending
map and the settlement record. -/
def CorrInv (s : CorrState) : Prop :=
  (usedIds s).Nodup

/-- The four outcomes the claims allow a settlement to take. -/
def OutcomeOk (o : Outcome) : Prop :=
  o = .success ∨ o = .execError ∨ o = .timeoutErr ∨ o = .notConnected

/-- Every recorded settlement has one of the four allowed outcomes. -/
def SettledOk (s : CorrState) : Prop :=
  ∀ p ∈ s.settled, OutcomeOk p.2

/-! ## Native-messaging framing codec (native host source)

`writeNativeMessage` emits a 4-byte little-endian length followed by the
UTF-8 JSON body.  `readNativeMessage` returns a promise and attaches an
`onData` listener that accumulates chunks: while the expected length is
unknown (`expectedLength === -1`) bytes go to `lengthBuffer`, and once
four bytes are available the length is read and any surplus becomes the
start of `messageBuffer`; afterwards chunks are appended to
`messageBuffer`, and as soon as `messageBuffer.length >= expectedLength`
the listener is removed and the promise resolves with
`messageBuffer.slice(0, expectedLength)`.  Bytes of the resolving chunk
beyond `expectedLength` are local to the finished promise and are
discarded.  Bodies are modelled as their byte lists (the subsequent
`JSON.parse` is outside the framing layer). -/

/-- The 4-byte little-endian encoding of a length (`writeUInt32LE`). -/
def toLE4 (n : Nat) : List Nat :=
  [n % 256, n / 256 % 256, n / 256 ^ 2 % 256, n / 256 ^ 3 % 256]

/-- The `readUInt32LE(0)` on the first four bytes of a buffer. -/
def readUInt32LE (l : List Nat) : Nat :=
  match l with
  | b0 :: b1 :: b2 :: b3 :: _ => b0 + b1 * 256 + b2 * 256 ^ 2 + b3 * 256 ^ 3
  | _ => 0

/-- The `writeNativeMessage`: length prefix followed by the body bytes. -/
def writeNativeMessage (body : List Nat) : List Nat :=
  toLE4 body.length ++ body

/-- The local state of one `readNativeMessage` promise. -/
structure ReadState where
  lengthBuffer : List Nat
  messageBuffer : List Nat
  /-- `none` models `expectedLength === -1`. -/
  expectedLength : Option Nat
  /-- `some body` once the promise has resolved. -/
  result : Option (List Nat)
  deriving Repr, DecidableEq

/-- Fresh state at the start of a `readNativeMessage` call. -/
def readInit : ReadState :=
  { lengthBuffer := [], messageBuffer := [], expectedLength := none, result := none }

/-- The `onData` listener body of `readNativeMessage`, for one chunk. -/
def onData (st : ReadState) (chunk : List Nat) : ReadState :=
  let st1 :=
    match st.expectedLength with
    | none =>
      let lb := st.lengthBuffer ++ chunk
      if 4 ≤ lb.length then
        { st with lengthBuffer := []
                  messageBuffer := lb.drop 4
                  expectedLength := some (readUInt32LE lb) }
      else
        { st with lengthBuffer := lb }
    | some _ => { st with messageBuffer := st.messageBuffer ++ chunk }
  match st1.expectedLength with
  | some n =>
    if n ≤ st1.messageBuffer.length then
      { st1 with result := some (st1.messageBuffer.take n) }
    else st1
  | none => st1

/-- Feed chunks to one `readNativeMessage` call until its promise
resolves; return the decoded body and the chunks not yet consumed.  The
surplus of the resolving chunk is dropped, exactly as the source's local
`messageBuffer` is when the listener is removed. -/
def readOneAux (st : ReadState) : List (List Nat) → Option (List Nat × List (List Nat))
  | [] => none
  | c :: cs =>
    let st' := onData st c
    match st'.result with
    | some m => some (m, cs)
    | none => readOneAux st' cs

/-- One `readNativeMessage` call over a chunk sequence. -/
def readOne (chunks : List (List Nat)) : Option (List Nat × List (List Nat)) :=
  readOneAux readInit chunks

/-- The driver loop of `handleExtensionMessages` with explicit fuel:
call `readNativeMessage` repeatedly, collecting the decoded message
bodies, until the chunk stream is exhausted without a further message
resolving.  Each resolved message consumes at least one chunk, so fuel
equal to the number of chunks never cuts a run short. -/
def decodeChunksFuel : Nat → List (List Nat) → List (List Nat)
  | 0, _ => []
  | fuel + 1, chunks =>
    match readOne chunks with
    | none => []
    | some (m, rest) => m :: decodeChunksFuel fuel rest

/-- Decode a whole chunk sequence. -/
def decodeChunks (chunks : List (List Nat)) : List (List Nat) :=
  decodeChunksFuel chunks.length chunks

/-! ## Reconnect state machines

Extension background worker (`scheduleReconnect` there), with
`CONFIG = {reconnectBaseDelay: 1000, reconnectMaxDelay: 30000,
maxReconnectAttempts: 20}`: clears any pending timer; at
`reconnectAttempts >= 20` sets status `failed` and schedules nothing;
otherwise schedules a timer after
`min(1000 * 2^reconnectAttempts, 30000)` whose firing increments
`reconnectAttempts` and calls `connect()`.  A `connected` notification
resets `reconnectAttempts` to 0.

Native host (`scheduleReconnect` there), with
`CONFIG = {reconnectDelay: 1000, maxReconnectAttempts: 10}`: at
`reconnectAttempts >= 10` gives up and schedules nothing; otherwise
increments `reconnectAttempts` and schedules `connectToServer` after
`1000 * min(reconnectAttempts, 5)`.  The `open` handler resets
`reconnectAttempts` to 0. -/

structure BgState where
  reconnectAttempts : Nat
  timerPending : Bool
  connectionStatus : String
  deriving Repr, DecidableEq

/-- The `scheduleReconnect` of the extension background worker.  Returns the
new state and the delay of the scheduled timer, `none` when none is
scheduled. -/
def bgScheduleReconnect (s : BgState) : BgState × Option Nat :=
  if 20 ≤ s.reconnectAttempts then
    ({ s with timerPending := false, connectionStatus := "failed" }, none)
  else
    ({ s with timerPending := true }, some (min (1000 * 2 ^ s.reconnectAttempts) 30000))

/-- The scheduled timer firing: `reconnectAttempts++; connect();`. -/
def bgTimerFire (s : BgState) : BgState :=
  { s with reconnectAttempts := s.reconnectAttempts + 1, timerPending := false }

/-- The `connected` message from the native host:
`setConnectionStatus('connected'); reconnectAttempts = 0;`. -/
def bgOnConnected (s : BgState) : BgState :=
  { s with reconnectAttempts := 0, connectionStatus := "connected" }

/-- A run of `n` consecutive connection failures of the background
worker, each failure invoking `scheduleReconnect` and, when a timer was
scheduled, the timer firing into the next (failing) `connect()`.
Returns the list of scheduled delays. -/
def bgFailureDelays (s : BgState) : Nat → List Nat × BgState
  | 0 => ([], s)
  | n + 1 =>
    let r := bgScheduleReconnect s
    match r.2 with
    | none => ([], r.1)
    | some d =>
      let rest := bgFailureDelays (bgTimerFire r.1) n
      (d :: rest.1, rest.2)

structure NhState where
  reconnectAttempts : Nat
  deriving Repr, DecidableEq

/-- The `scheduleReconnect` of the native host: increments the attempt
counter, then schedules after `reconnectDelay * min(attempts, 5)`;
at the cap it gives up and schedules nothing. -/
def nhScheduleReconnect (s : NhState) : NhState × Option Nat :=
  if 10 ≤ s.reconnectAttempts then
    (s, none)
  else
    let a := s.reconnectAttempts + 1
    ({ reconnectAttempts := a }, some (1000 * min a 5))

/-- The `open` handler of the native host: `reconnectAttempts = 0`. -/
def nhOnOpen (_ : NhState) : NhState :=
  { reconnectAttempts := 0 }

/-- A run of `n` consecutive connection failures of the native host,
collecting the scheduled delays. -/
def nhFailureDelays (s : NhState) : Nat → List Nat × NhState
  | 0 => ([], s)
  | n + 1 =>
    let r := nhScheduleReconnect s
    match r.2 with
    | none => ([], r.1)
    | some d =>
      let rest := nhFailureDelays r.1 n
      (d :: rest.1, rest.2)

/-- Fresh background-worker state before any failure. -/
def bgInit : BgState :=
  { reconnectAttempts := 0, timerPending := false, connectionStatus := "disconnected" }

/-- Fresh native-host state before any failure. -/
def nhInit : NhState :=
  { reconnectAttempts := 0 }

/-- Modelled from the spec: the delay formula the specification asserts
for both reconnection legs, `min(base * 2^n, max)` after the `n`-th
consecutive failure (counting from 0), i.e. the sequence
`base, 2*base, 4*base, ...` capped at `max`.  Stated for comparison with
the delay sequences of the two implementations. -/
def specBackoffDelay (base maxDelay n : Nat) : Nat :=
  min (base * 2 ^ n) maxDelay

/-! ## The `CallToolRequestSchema` handler of the gateway

The handler computes `startTime`, applies the emergency-stop gate (for
tools outside `securityTools`), then the rate-limit gate (for tools
outside `readOnlyTools`), then dispatches on the tool name; extension
tools call `sendToExtension`, whose thrown errors reach the shared
`catch` block, which writes an `error` audit entry carrying
`duration_ms`.  The blocked paths write a `blocked` audit entry without
`duration_ms` and return early.  Success paths of extension and
knowledge tools (everything except `security_config` updates and the
`emergency_stop` tool) write no audit entry at all. -/

/-- The `securityTools` array of the handler. -/
def securityTools : List String :=
  ["security_status", "security_config", "emergency_stop", "audit_logs"]

/-- The `readOnlyTools` array of the handler. -/
def readOnlyTools : List String :=
  ["ping", "tabs_list", "windows_list", "read_page", "screenshot"] ++ securityTools

/-- The tools whose `case` relays via `sendToExtension`. -/
def extensionTools : List String :=
  ["ping", "tabs_list", "windows_list", "navigate", "click", "type",
   "read_page", "navigate_and_read", "screenshot", "console_logs",
   "evaluate", "mouse_click", "mouse_move", "keyboard_type",
   "keyboard_press", "scroll", "go_back", "go_forward", "refresh",
   "download", "download_status", "get_bounding_rect",
   "wait_for_element", "element_exists", "drag"]

/-- The tools whose `case` is served from local disk state (site
knowledge and guides). -/
def localKnowledgeTools : List String :=
  ["site_knowledge_get", "site_knowledge_save", "site_knowledge_list",
   "guide_list", "guide_read", "guide_search"]

/-- One line of the append-only audit log (`AuditLogEntry`); `argsJson`
models the serialized `args` value. -/
structure AuditEntry where
  action : String
  argsJson : Option String
  result : String
  error : Option String
  duration_ms : Option Nat
  deriving Repr, DecidableEq

/-- The gateway state the handler reads and writes: the security config,
the rate-limit window and the audit log. -/
structure GatewayState where
  config : SecurityConfig
  actionTimestamps : List Nat
  auditEntries : List AuditEntry
  deriving Repr, DecidableEq

/-- The `auditLog(entry)`: append to the log when audit logging is enabled. -/
def auditAppend (s : GatewayState) (e : AuditEntry) : GatewayState :=
  if s.config.auditLog.enabled then
    { s with auditEntries := s.auditEntries ++ [e] }
  else s

/-- How the extension answers a relayed request, when one is sent. -/
inductive ExtReply
  | successReply
  | errorReply (msg : String)
  | timeoutReply
  deriving Repr, DecidableEq

/-- What the handler returns for one tool call. -/
inductive ToolResult
  | blockedRes (msg : String)
  | okRes
  | errorRes (msg : String)
  deriving Repr, DecidableEq

/-- The error message `sendToExtension` throws with no open socket. -/
def notConnectedMsg : String :=
  "Browser extension not connected. Please ensure the Helios extension is installed and connected."

/-- The timeout rejection message (`CONFIG.requestTimeout = 30000`). -/
def timeoutMsg : String :=
  "Request timed out after 30000ms"

/-- The `CallToolRequestSchema` handler.  `argsJson` is the serialized
arguments, `stopArg` the `stop` argument of the `emergency_stop` tool,
`now` the handler's `startTime`, `dur` the `Date.now() - startTime`
value observed in the `catch` block, `extOpen` whether an `OPEN`
extension socket exists, and `reply` the extension's answer when a
request is relayed.  Returns the result, the updated state, and whether
a request was transmitted to the extension. -/
def handleToolCall (s : GatewayState) (name : String) (argsJson : Option String)
    (stopArg : Bool) (now dur : Nat) (extOpen : Bool) (reply : ExtReply) :
    ToolResult × GatewayState × Bool :=
  -- Emergency stop check (except for security tools)
  if !securityTools.contains name && isEmergencyStopped s.config then
    (.blockedRes "Emergency stop active",
     auditAppend s
       { action := name, argsJson := argsJson, result := "blocked"
         error := some "Emergency stop active", duration_ms := none },
     false)
  else
    -- Rate limit check (except for security and read-only tools)
    let gated :=
      if !readOnlyTools.contains name then
        let r := checkRateLimit s.config now s.actionTimestamps
        ({ s with actionTimestamps := r.2 }, r.1.allowed)
      else (s, true)
    if !gated.2 then
      (.blockedRes "Rate limit exceeded",
       auditAppend gated.1
         { action := name, argsJson := argsJson, result := "blocked"
           error := some "Rate limit exceeded", duration_ms := none },
       false)
    else
      let s1 := gated.1
      -- switch (name)
      if extensionTools.contains name then
        if !extOpen then
          -- sendToExtension throws; the catch block audits with duration
          (.errorRes notConnectedMsg,
           auditAppend s1
             { action := name, argsJson := argsJson, result := "error"
               error := some notConnectedMsg, duration_ms := some dur },
           false)
        else
          match reply with
          | .successReply => (.okRes, s1, true)
          | .errorReply msg =>
            (.errorRes msg,
             auditAppend s1
               { action := name, argsJson := argsJson, result := "error"
                 error := some msg, duration_ms := some dur },
             true)
          | .timeoutReply =>
            (.errorRes timeoutMsg,
             auditAppend s1
               { action := name, argsJson := argsJson, result := "error"
                 error := some timeoutMsg, duration_ms := some dur },
             true)
      else if name == "security_status" then
        -- const rateCheck = checkRateLimit(); ... (status text returned)
        let r := checkRateLimit s1.config now s1.actionTimestamps
        (.okRes, { s1 with actionTimestamps := r.2 }, false)
      else if name == "security_config" then
        -- read-only branch (no update argument)
        (.okRes, s1, false)
      else if name == "emergency_stop" then
        -- await setEmergencyStop(stop): flips the flag and audits success
        (.okRes,
         auditAppend { s1 with config := setEmergencyStop s1.config stopArg }
           { action := "emergency_stop", argsJson := argsJson
             result := "success", error := none, duration_ms := none },
         false)
      else if name == "audit_logs" then
        (.okRes, s1, false)
      else if localKnowledgeTools.contains name then
        (.okRes, s1, false)
      else
        -- default: `Unknown tool`, returned directly (not via catch)
        (.errorRes ("Unknown tool: " ++ name), s1, false)

/-! ## Theorems -/

theorem auditAppend_actionTimestamps (s : GatewayState) (e : AuditEntry) :
    (auditAppend s e).actionTimestamps = s.actionTimestamps := by
  unfold auditAppend; split <;> rfl

theorem auditAppend_config (s : GatewayState) (e : AuditEntry) :
    (auditAppend s e).config = s.config := by
  unfold auditAppend; split <;> rfl

theorem settleOnce_eq_append {st : List (String × Outcome)} {id : String} {o : Outcome}
    (h : id ∉ st.map Prod.fst) : settleOnce st id o = st ++ [(id, o)] := by
  unfold settleOnce
  rw [if_neg h]

theorem erase_append_settle_perm {p : List String} {id : String} (hmem : id ∈ p)
    (q : List String) : (p.erase id ++ (q ++ [id])).Perm (p ++ q) := by
  have h1 : (p.erase id ++ (q ++ [id])).Perm (p.erase id ++ ([id] ++ q)) :=
    List.Perm.append_left _ List.perm_append_comm
  have h2 : p.erase id ++ ([id] ++ q) = (p.erase id ++ [id]) ++ q :=
    (List.append_assoc _ _ _).symm
  have h3 : ((p.erase id ++ [id]) ++ q).Perm ((id :: p.erase id) ++ q) :=
    List.Perm.append_right _ List.perm_append_comm
  have h4 : ((id :: p.erase id) ++ q).Perm (p ++ q) :=
    List.Perm.append_right _ (List.perm_cons_erase hmem).symm
  refine h1.trans ?_
  rw [h2]
  exact h3.trans h4

theorem usedIds_corrStep_perm {s : CorrState} {e : CorrEvent}
    (hinv : CorrInv s) (hf : evFresh s e) :
    (usedIds (corrStep s e)).Perm (usedIds s ++ eventIds e) := by
  have hdisj := List.disjoint_of_nodup_append hinv
  cases e with
  | invoke id =>
    have hid : id ∉ usedIds s := hf
    by_cases hso : s.socketOpen = true
    · have hv : corrStep s (.invoke id) = { s with pending := s.pending ++ [id] } := by
        simp [corrStep, hso]
      rw [hv]
      show ((s.pending ++ [id]) ++ settledIds s).Perm ((s.pending ++ settledIds s) ++ [id])
      rw [List.append_assoc, List.append_assoc]
      exact List.Perm.append_left _ List.perm_append_comm
    · have hid2 : id ∉ s.settled.map Prod.fst := fun h =>
        hid (List.mem_append.mpr (Or.inr h))
      have hv : corrStep s (.invoke id)
          = { s with settled := s.settled ++ [(id, Outcome.notConnected)] } := by
        simp [corrStep, hso, settleOnce_eq_append hid2]
      rw [hv]
      show (s.pending ++ (s.settled ++ [(id, Outcome.notConnected)]).map Prod.fst).Perm
        ((s.pending ++ settledIds s) ++ [id])
      simp only [settledIds, List.map_append, List.map_cons, List.map_nil, List.append_assoc]
      exact List.Perm.refl _
  | response id ok =>
    by_cases hmem : id ∈ s.pending
    · have hq : id ∉ s.settled.map Prod.fst := fun h => hdisj hmem h
      have hv : corrStep s (.response id ok)
          = { s with pending := s.pending.erase id
                     settled := s.settled ++ [(id, if ok then Outcome.success
                       else Outcome.execError)] } := by
        simp [corrStep, hmem, settleOnce_eq_append hq]
      rw [hv]
      show (s.pending.erase id
          ++ (s.settled ++ [(id, if ok then Outcome.success else Outcome.execError)]).map
            Prod.fst).Perm ((s.pending ++ settledIds s) ++ eventIds (.response id ok))
      simp only [settledIds, List.map_append, List.map_cons, List.map_nil, eventIds,
        List.append_nil]
      exact erase_append_settle_perm hmem _
    · have hv : corrStep s (.response id ok) = s := by simp [corrStep, hmem]
      rw [hv]
      simp only [eventIds, List.append_nil]
      exact List.Perm.refl _
  | timerFire id =>
    by_cases hmem : id ∈ s.pending
    · have hq : id ∉ s.settled.map Prod.fst := fun h => hdisj hmem h
      have hv : corrStep s (.timerFire id)
          = { s with pending := s.pending.erase id
                     settled := s.settled ++ [(id, Outcome.timeoutErr)] } := by
        simp [corrStep, hmem, settleOnce_eq_append hq]
      rw [hv]
      show (s.pending.erase id
          ++ (s.settled ++ [(id, Outcome.timeoutErr)]).map Prod.fst).Perm
        ((s.pending ++ settledIds s) ++ eventIds (.timerFire id))
      simp only [settledIds, List.map_append, List.map_cons, List.map_nil, eventIds,
        List.append_nil]
      exact erase_append_settle_perm hmem _
    · have hv : corrStep s (.timerFire id) = s := by simp [corrStep, hmem]
      rw [hv]
      simp only [eventIds, List.append_nil]
      exact List.Perm.refl _
  | close =>
    simp only [eventIds, List.append_nil]
    exact List.Perm.refl _
  | connect =>
    simp only [eventIds, List.append_nil]
    exact List.Perm.refl _

theorem corrStep_response_noop {s : CorrState} {id : String} {ok : Bool}
    (h : id ∉ s.pending) : corrStep s (.response id ok) = s := by
  simp [corrStep, h]

theorem corrStep_timerFire_noop {s : CorrState} {id : String}
    (h : id ∉ s.pending) : corrStep s (.timerFire id) = s := by
  simp [corrStep, h]

theorem corrInv_corrStep {s : CorrState} {e : CorrEvent}
    (hinv : CorrInv s) (hf : evFresh s e) : CorrInv (corrStep s e) := by
  have hperm := usedIds_corrStep_perm hinv hf
  refine hperm.nodup_iff.mpr ?_
  cases e with
  | invoke id =>
    refine List.nodup_append.mpr ⟨hinv, List.nodup_singleton id, ?_⟩
    intro a ha hb
    have : a = id := by simpa [eventIds] using hb
    exact hf (this ▸ ha)
  | response id ok => simpa [eventIds] using hinv
  | timerFire id => simpa [eventIds] using hinv
  | close => simpa [eventIds] using hinv
  | connect => simpa [eventIds] using hinv

theorem settledOk_settleOnce {st : List (String × Outcome)}
    (h : ∀ p ∈ st, OutcomeOk p.2) (id : String) {o : Outcome} (ho : OutcomeOk o) :
    ∀ p ∈ settleOnce st id o, OutcomeOk p.2 := by
  intro p hp
  unfold settleOnce at hp
  split at hp
  · exact h p hp
  · rcases List.mem_append.mp hp with h' | h'
    · exact h p h'
    · have : p = (id, o) := by simpa using h'
      rw [this]
      exact ho

theorem settledOk_corrStep {s : CorrState} (e : CorrEvent)
    (h : SettledOk s) : SettledOk (corrStep s e) := by
  cases e with
  | invoke id =>
    by_cases hso : s.socketOpen = true <;> simp only [corrStep, hso, if_true, if_false] <;>
      simp only [SettledOk] at h ⊢
    · exact h
    · exact settledOk_settleOnce h id (Or.inr (Or.inr (Or.inr rfl)))
  | response id ok =>
    by_cases hmem : id ∈ s.pending <;> simp only [corrStep, hmem, if_true, if_false] <;>
      simp only [SettledOk] at h ⊢
    · cases ok
      · exact settledOk_settleOnce h id (Or.inr (Or.inl rfl))
      · exact settledOk_settleOnce h id (Or.inl rfl)
    · exact h
  | timerFire id =>
    by_cases hmem : id ∈ s.pending <;> simp only [corrStep, hmem, if_true, if_false] <;>
      simp only [SettledOk] at h ⊢
    · exact settledOk_settleOnce h id (Or.inr (Or.inr (Or.inl rfl)))
    · exact h
  | close => exact h
  | connect => exact h

theorem corrRun_main {es : List CorrEvent} {s : CorrState}
    (hinv : CorrInv s) (hnd : (invokedIds es).Nodup)
    (hdisj : ∀ id ∈ invokedIds es, id ∉ usedIds s) :
    CorrInv (corrRun s es)
      ∧ (usedIds (corrRun s es)).Perm (usedIds s ++ invokedIds es)
      ∧ (SettledOk s → SettledOk (corrRun s es)) := by
  induction es generalizing s with
  | nil =>
    refine ⟨hinv, ?_, fun h => h⟩
    simp only [invokedIds, List.append_nil]
    exact List.Perm.refl _
  | cons e es ih =>
    have hf : evFresh s e := by
      cases e with
      | invoke id => exact hdisj id (by simp [invokedIds])
      | response id ok => trivial
      | timerFire id => trivial
      | close => trivial
      | connect => trivial
    have hinv' := corrInv_corrStep hinv hf
    have hstep := usedIds_corrStep_perm hinv hf
    have hnd' : (invokedIds es).Nodup := by
      cases e <;> simp only [invokedIds] at hnd ⊢ <;>
        first
          | exact (List.nodup_cons.mp hnd).2
          | exact hnd
    have hdisj' : ∀ id ∈ invokedIds es, id ∉ usedIds (corrStep s e) := by
      intro id' hid' hmem
      have hm2 : id' ∈ usedIds s ++ eventIds e := hstep.mem_iff.mp hmem
      rcases List.mem_append.mp hm2 with hcase | hcase
      · cases e with
        | invoke id => exact hdisj id' (by simp [invokedIds, hid']) hcase
        | response id ok => exact hdisj id' (by simpa [invokedIds] using hid') hcase
        | timerFire id => exact hdisj id' (by simpa [invokedIds] using hid') hcase
        | close => exact hdisj id' (by simpa [invokedIds] using hid') hcase
        | connect => exact hdisj id' (by simpa [invokedIds] using hid') hcase
      · cases e with
        | invoke id =>
          have heq : id' = id := by simpa [eventIds] using hcase
          have hnotin : id ∉ invokedIds es :=
            (List.nodup_cons.mp (by simpa [invokedIds] using hnd)).1
          exact hnotin (heq ▸ hid')
        | response id ok => simp [eventIds] at hcase
        | timerFire id => simp [eventIds] at hcase
        | close => simp [eventIds] at hcase
        | connect => simp [eventIds] at hcase
    obtain ⟨h1, h2, h3⟩ := ih hinv' hnd' hdisj'
    refine ⟨h1, ?_, fun h => h3 (settledOk_corrStep e h)⟩
    have hrun : corrRun s (e :: es) = corrRun (corrStep s e) es := rfl
    have hfinal : (usedIds s ++ eventIds e) ++ invokedIds es
        = usedIds s ++ invokedIds (e :: es) := by
      cases e <;> simp [eventIds, invokedIds, List.append_assoc]
    have hcomb : (usedIds (corrRun (corrStep s e) es)).Perm
        ((usedIds s ++ eventIds e) ++ invokedIds es) :=
      h2.trans (List.Perm.append_right _ hstep)
    rw [hrun]
    exact hfinal ▸ hcomb

/-- Claim C3: the framing decoder is claimed to be chunk-boundary
invariant.  It is not: a chunk containing the end of one frame and the
whole of the next loses the second frame, because `readNativeMessage`
discards the bytes of the resolving chunk beyond the expected length.
Delivering the frames of bodies `[65]` and `[66]` as two aligned chunks
yields both bodies, and splitting a single frame byte-by-byte is decoded
correctly, but the same two frames in one chunk decode to only the first
body, so the two partitions of the identical byte stream disagree. -/
theorem claim_C3_chunk_boundary_broken :
    decodeChunks [writeNativeMessage [65], writeNativeMessage [66]] = [[65], [66]]
      ∧ decodeChunks [[1], [0], [0], [0], [65]] = [[65]]
      ∧ writeNativeMessage [65] ++ writeNativeMessage [66]
          = [1, 0, 0, 0, 65, 1, 0, 0, 0, 66]
      ∧ decodeChunks [writeNativeMessage [65] ++ writeNativeMessage [66]] = [[65]]
      ∧ decodeChunks [writeNativeMessage [65] ++ writeNativeMessage [66]]
          ≠ decodeChunks [writeNativeMessage [65], writeNativeMessage [66]] := by
  decide

/-- Claim C4: domain matching is claimed to be by parsed-hostname
equality or suffix match, never substring containment.  The code's
`isDomainAllowed` uses raw substring containment: with allowlist
`["github.com"]` the URL `https://evil-github.com` is allowed (the claim
requires it rejected), and with blocklist `["chrome://"]` a URL merely
containing `chrome://` in its query string is blocked.  The two
examples the claim gets right (`chrome://settings` blocked,
`https://api.github.com/x` allowed) hold, but through prefix/substring
matching, not hostname parsing. -/
theorem claim_C4_domain_matching_is_substring :
    (isDomainAllowed
        { DEFAULT_SECURITY_CONFIG with
            domains := { allowlist := [], blocklist := ["chrome://"] } }
        "chrome://settings").allowed = false
      ∧ (isDomainAllowed
          { DEFAULT_SECURITY_CONFIG with
              domains := { allowlist := ["github.com"], blocklist := [] } }
          "https://api.github.com/x").allowed = true
      ∧ (isDomainAllowed
          { DEFAULT_SECURITY_CONFIG with
              domains := { allowlist := ["github.com"], blocklist := [] } }
          "https://evil-github.com").allowed = true
      ∧ (isDomainAllowed
          { DEFAULT_SECURITY_CONFIG with
              domains := { allowlist := [], blocklist := ["chrome://"] } }
          "https://example.com/?next=chrome://x").allowed = false := by
  decide

/-- Claim C5: with rate limiting enabled and `maxActionsPerMinute = 60`,
of 61 checks arriving within one minute (at times 0, 1000, ..., 60000)
the first 60 are allowed and the 61st is rejected; the rejected check
records no timestamp (the window after 61 checks equals the window after
the first 60); and once the window slides past the oldest timestamps
(a check at time 62000 prunes the entries at 0 and 1000) capacity is
restored and the check is allowed again. -/
theorem claim_C5_rate_limit_61st_blocked :
    (runRateChecks DEFAULT_SECURITY_CONFIG [] ((List.range 61).map (· * 1000))).1
        = List.replicate 60 true ++ [false]
      ∧ (runRateChecks DEFAULT_SECURITY_CONFIG [] ((List.range 61).map (· * 1000))).2
          = (runRateChecks DEFAULT_SECURITY_CONFIG [] ((List.range 60).map (· * 1000))).2
      ∧ (checkRateLimit DEFAULT_SECURITY_CONFIG 62000
          (runRateChecks DEFAULT_SECURITY_CONFIG [] ((List.range 61).map (· * 1000))).2).1.allowed
          = true
      ∧ (checkRateLimit DEFAULT_SECURITY_CONFIG 62000
          (runRateChecks DEFAULT_SECURITY_CONFIG [] ((List.range 61).map (· * 1000))).2).2
          = ((runRateChecks DEFAULT_SECURITY_CONFIG [] ((List.range 61).map (· * 1000))).2).drop 2
              ++ [62000] := by
  set_option maxRecDepth 8000 in decide

/-- Claim C9, counterexample: the native host's retry delays after four
consecutive failures are `[1000, 2000, 3000, 4000]` (linear,
`1000 * min(attempt, 5)`), not the claimed doubling sequence
`base, 2*base, 4*base, ...`: with the extension leg's cap 30000 the
exponential sequence is `[1000, 2000, 4000, 8000]`, and even choosing the
cap 3000 so that the third delay matches gives `[1000, 2000, 3000, 3000]`
— both differ from the native host's delays. -/
theorem claim_C9_counterexample :
    (nhFailureDelays { reconnectAttempts := 0 } 4).1 = [1000, 2000, 3000, 4000]
      ∧ (List.range 4).map (specBackoffDelay 1000 30000) = [1000, 2000, 4000, 8000]
      ∧ (List.range 4).map (specBackoffDelay 1000 3000) = [1000, 2000, 3000, 3000]
      ∧ (nhFailureDelays { reconnectAttempts := 0 } 4).1
          ≠ (List.range 4).map (specBackoffDelay 1000 30000)
      ∧ (nhFailureDelays { reconnectAttempts := 0 } 4).1
          ≠ (List.range 4).map (specBackoffDelay 1000 3000) := by
  decide

/-- Claim C9, amended: the extension background worker's leg does follow
`min(base * 2^n, max) = min(1000 * 2^n, 30000)` for its whole lifetime of
at most 20 scheduled retries, after which `scheduleReconnect` enters the
terminal `failed` status with no timer pending and schedules no delay,
and a successful connection resets the attempt counter to 0; the native
host's leg instead uses the linear ramp `1000 * min(n, 5)` for at most 10
scheduled retries, after which it schedules nothing, and its `open`
handler resets the attempt counter to 0. -/
theorem claim_C9_amended_backoff_shapes :
    (bgFailureDelays bgInit 20).1 = (List.range 20).map (specBackoffDelay 1000 30000)
      ∧ (bgScheduleReconnect (bgFailureDelays bgInit 20).2).2 = none
      ∧ (bgScheduleReconnect (bgFailureDelays bgInit 20).2).1.connectionStatus = "failed"
      ∧ (bgScheduleReconnect (bgFailureDelays bgInit 20).2).1.timerPending = false
      ∧ (∀ s : BgState, (bgOnConnected s).reconnectAttempts = 0)
      ∧ (nhFailureDelays nhInit 10).1 = (List.range 10).map (fun i => 1000 * min (i + 1) 5)
      ∧ (nhScheduleReconnect (nhFailureDelays nhInit 10).2).2 = none
      ∧ (∀ s : NhState, (nhOnOpen s).reconnectAttempts = 0) := by
  refine ⟨by decide, by decide, by decide, by decide, fun s => rfl, by decide, by decide,
    fun s => rfl⟩

/-- Claim C2, counterexample: with one request pending, the
`socket.on('close')` handler leaves the pending entry in the map,
settles nothing (in particular nothing with `ConnectionLost`), and only
clears the socket reference — the claim's immediate reject-and-remove
does not happen. -/
theorem claim_C2_counterexample :
    (corrStep { socketOpen := true, pending := ["m1"], settled := [] } .close).pending
        = ["m1"]
      ∧ (corrStep { socketOpen := true, pending := ["m1"], settled := [] } .close).settled
          = []
      ∧ corrStep { socketOpen := true, pending := ["m1"], settled := [] } .close
          = { socketOpen := false, pending := ["m1"], settled := [] } := by
  decide

/-- Claim C2, amended: when the extension channel closes, the close
handler only clears the socket reference; every still-pending entry
survives in the map, nothing is rejected with `ConnectionLost`, and a
surviving entry is settled only later, when its original request timer
fires, with the `Timeout` rejection. -/
theorem claim_C2_amended_close_keeps_pending (s : CorrState) (id : String)
    (hid : id ∈ s.pending) :
    (corrStep s .close).pending = s.pending
      ∧ (corrStep s .close).settled = s.settled
      ∧ (corrStep s .close).socketOpen = false
      ∧ corrStep (corrStep s .close) (.timerFire id)
          = { socketOpen := false, pending := s.pending.erase id
              settled := settleOnce s.settled id .timeoutErr } := by
  refine ⟨rfl, rfl, rfl, ?_⟩
  simp [corrStep, hid]

/-- Witness for `claim_C2_amended_close_keeps_pending` at a concrete
pending entry. -/
theorem claim_C2_amended_witness :
    "m1" ∈ ({ socketOpen := true, pending := ["m1"], settled := [] } : CorrState).pending
      ∧ corrStep (corrStep { socketOpen := true, pending := ["m1"], settled := [] } .close)
          (.timerFire "m1")
          = { socketOpen := false, pending := [], settled := [("m1", .timeoutErr)] } := by
  refine ⟨by decide, ?_⟩
  have h := claim_C2_amended_close_keeps_pending
    { socketOpen := true, pending := ["m1"], settled := [] } "m1" (by decide)
  rw [h.2.2.2]
  decide

/-- Claim C8: a tool invocation reaching `sendToExtension` while no
extension socket is in the `OPEN` state fails in the same step with the
distinct `NotConnected` outcome: no pending entry is created, nothing is
queued, no timer is armed, and the settlement does not wait for any
timeout event. -/
theorem claim_C8_not_connected_fails_fast (s : CorrState) (id : String)
    (hclosed : s.socketOpen = false) :
    corrStep s (.invoke id)
        = { s with settled := settleOnce s.settled id .notConnected }
      ∧ (corrStep s (.invoke id)).pending = s.pending
      ∧ Outcome.notConnected ≠ Outcome.timeoutErr := by
  refine ⟨?_, ?_, by decide⟩ <;> simp [corrStep, hclosed]

/-- Witness for `claim_C8_not_connected_fails_fast` on the disconnected
initial state. -/
theorem claim_C8_witness :
    (corrInit false).socketOpen = false
      ∧ corrStep (corrInit false) (.invoke "m1")
          = { corrInit false with settled := settleOnce [] "m1" .notConnected } := by
  exact ⟨rfl, (claim_C8_not_connected_fails_fast (corrInit false) "m1" rfl).1⟩

/-- Claim C6: with emergency stop active, any tool outside the four
security tools is blocked with the emergency-stop error — before the
rate-limit gate (the rate window is read and written by neither path),
without any relay to the extension, and regardless of the rate window,
the connection state or the extension's would-be reply; the resulting
state keeps the whole config (in particular `emergencyStop = true`), so
every subsequent non-exempt call is blocked the same way until the
`emergency_stop` tool is called with `stop = false`, which clears the
flag. -/
theorem claim_C6_emergency_stop_blocks_all (s : GatewayState) (name : String)
    (argsJson : Option String) (stopArg : Bool) (now dur : Nat) (extOpen : Bool)
    (reply : ExtReply) (hstop : s.config.emergencyStop = true)
    (hname : securityTools.contains name = false) :
    (handleToolCall s name argsJson stopArg now dur extOpen reply).1
        = .blockedRes "Emergency stop active"
      ∧ (handleToolCall s name argsJson stopArg now dur extOpen reply).2.2 = false
      ∧ (handleToolCall s name argsJson stopArg now dur extOpen reply).2.1.actionTimestamps
          = s.actionTimestamps
      ∧ (handleToolCall s name argsJson stopArg now dur extOpen reply).2.1.config = s.config
      ∧ (handleToolCall s "emergency_stop" argsJson false now dur extOpen
          reply).2.1.config.emergencyStop = false := by
  have h1 : (!securityTools.contains name && isEmergencyStopped s.config) = true := by
    rw [hname, isEmergencyStopped, hstop]; rfl
  have hmain : handleToolCall s name argsJson stopArg now dur extOpen reply
      = (.blockedRes "Emergency stop active",
         auditAppend s
           { action := name, argsJson := argsJson, result := "blocked"
             error := some "Emergency stop active", duration_ms := none },
         false) := by
    unfold handleToolCall
    rw [h1]
    rfl
  have hclear : (handleToolCall s "emergency_stop" argsJson false now dur extOpen
      reply).2.1.config.emergencyStop = false := by
    unfold handleToolCall
    simp only [securityTools, readOnlyTools, extensionTools, List.contains_cons,
      List.contains_nil, List.append_assoc, List.cons_append, List.nil_append]
    simp [isEmergencyStopped, auditAppend, setEmergencyStop]
    split <;> rfl
  refine ⟨by rw [hmain], by rw [hmain], ?_, ?_, hclear⟩
  · rw [hmain]; exact auditAppend_actionTimestamps s _
  · rw [hmain]; exact auditAppend_config s _

/-- Witness for `claim_C6_emergency_stop_blocks_all`: a `navigate` call
under emergency stop. -/
theorem claim_C6_witness :
    ({ config := setEmergencyStop DEFAULT_SECURITY_CONFIG true, actionTimestamps := []
       auditEntries := [] } : GatewayState).config.emergencyStop = true
      ∧ securityTools.contains "navigate" = false
      ∧ (handleToolCall
          { config := setEmergencyStop DEFAULT_SECURITY_CONFIG true, actionTimestamps := []
            auditEntries := [] } "navigate" none false 1000 5 true .successReply).1
          = .blockedRes "Emergency stop active" :=
  ⟨by decide, by decide,
    (claim_C6_emergency_stop_blocks_all
      { config := setEmergencyStop DEFAULT_SECURITY_CONFIG true, actionTimestamps := []
        auditEntries := [] } "navigate" none false 1000 5 true .successReply
      (by decide) (by decide)).1⟩

/-- Claim C7: the handler is claimed to write exactly one audit entry,
with outcome and duration, for every evaluated invocation.  It does not:
an allowed invocation that succeeds (here `navigate` answered
successfully by the extension) writes no audit entry at all, and the
entry written for an emergency-stop-blocked invocation carries no
`duration_ms`.  Only the error path (the `catch` block) records a
duration. -/
theorem claim_C7_audit_not_exactly_once :
    (handleToolCall
        { config := DEFAULT_SECURITY_CONFIG, actionTimestamps := [], auditEntries := [] }
        "navigate" (some "url") false 1000 5 true .successReply).1 = .okRes
      ∧ (handleToolCall
          { config := DEFAULT_SECURITY_CONFIG, actionTimestamps := [], auditEntries := [] }
          "navigate" (some "url") false 1000 5 true .successReply).2.1.auditEntries = []
      ∧ (handleToolCall
          { config := setEmergencyStop DEFAULT_SECURITY_CONFIG true, actionTimestamps := []
            auditEntries := [] }
          "navigate" (some "url") false 1000 5 true .successReply).2.1.auditEntries
          = [{ action := "navigate", argsJson := some "url", result := "blocked"
               error := some "Emergency stop active", duration_ms := none }]
      ∧ (handleToolCall
          { config := DEFAULT_SECURITY_CONFIG, actionTimestamps := [], auditEntries := [] }
          "navigate" (some "url") false 1000 5 false .successReply).2.1.auditEntries
          = [{ action := "navigate", argsJson := some "url", result := "error"
               error := some notConnectedMsg, duration_ms := some 5 }] := by
  decide

/-- Claim C10: the read-only `security_status` tool bypasses the
rate-limit gate (it is in both `securityTools` and `readOnlyTools`), yet
its handler calls `checkRateLimit`, which appends the current timestamp
to the shared per-minute window whenever capacity remains — so each
`security_status` call leaves one more timestamp in the window that
action tools draw from. -/
theorem claim_C10_security_status_consumes_slot (s : GatewayState)
    (argsJson : Option String) (stopArg : Bool) (now dur : Nat) (extOpen : Bool)
    (reply : ExtReply) (hen : s.config.rateLimit.enabled = true)
    (hcap : (s.actionTimestamps.dropWhile (fun t => t < now - 60000)).length
        < s.config.rateLimit.maxActionsPerMinute) :
    securityTools.contains "security_status" = true
      ∧ readOnlyTools.contains "security_status" = true
      ∧ (handleToolCall s "security_status" argsJson stopArg now dur extOpen reply).1 = .okRes
      ∧ (handleToolCall s "security_status" argsJson stopArg now dur extOpen
          reply).2.1.actionTimestamps
          = s.actionTimestamps.dropWhile (fun t => t < now - 60000) ++ [now]
      ∧ (handleToolCall s "security_status" argsJson stopArg now dur extOpen
          reply).2.1.actionTimestamps.length
          = (s.actionTimestamps.dropWhile (fun t => t < now - 60000)).length + 1 := by
  have hle : ¬ s.config.rateLimit.maxActionsPerMinute
      ≤ (s.actionTimestamps.dropWhile (fun t => t < now - 60000)).length :=
    Nat.not_le.mpr hcap
  refine ⟨by decide, by decide, ?_, ?_, ?_⟩ <;>
    simp [handleToolCall, securityTools, readOnlyTools, extensionTools, isEmergencyStopped,
      checkRateLimit, hen, hle]

/-- Witness for `claim_C10_security_status_consumes_slot` on the default
config with an empty window. -/
theorem claim_C10_witness :
    ({ config := DEFAULT_SECURITY_CONFIG, actionTimestamps := [], auditEntries := [] }
        : GatewayState).config.rateLimit.enabled = true
      ∧ (([] : List Nat).dropWhile (fun t => t < 1000 - 60000)).length
          < DEFAULT_SECURITY_CONFIG.rateLimit.maxActionsPerMinute
      ∧ (handleToolCall
          { config := DEFAULT_SECURITY_CONFIG, actionTimestamps := [], auditEntries := [] }
          "security_status" none false 1000 5 true .successReply).2.1.actionTimestamps
          = ([] : List Nat).dropWhile (fun t => t < 1000 - 60000) ++ [1000] :=
  ⟨by decide, by decide,
    (claim_C10_security_status_consumes_slot
      { config := DEFAULT_SECURITY_CONFIG, actionTimestamps := [], auditEntries := [] }
      none false 1000 5 true .successReply (by decide) (by decide)).2.2.2.1⟩

/-- Claim C1: over any event trace whose `invoke` events carry pairwise
distinct fresh ids, started from an idle correlator: (i) the settlement
record never holds an id twice, so no promise settles twice; (ii) every
recorded outcome is success data, an executor-error rejection, a Timeout
rejection, or an immediate NotConnected rejection; (iii) when the trace
ends with the pending map empty (armed timers eventually fire unless
cleared), the settled ids are exactly the invoked ids — each outstanding
call settled exactly once; (iv) a response or a timer firing for an id
with no pending entry is a no-op on the whole correlator state; and (v)
when a matching response and the request's timeout race on the same
pending id, whichever is processed first wins and processing the loser
afterwards leaves the pending-request map (and everything else)
unchanged. -/
theorem claim_C1_settled_exactly_once (b : Bool) (es : List CorrEvent)
    (hnd : (invokedIds es).Nodup) :
    (settledIds (corrRun (corrInit b) es)).Nodup
      ∧ (∀ p ∈ (corrRun (corrInit b) es).settled, OutcomeOk p.2)
      ∧ ((corrRun (corrInit b) es).pending = [] →
          (settledIds (corrRun (corrInit b) es)).Perm (invokedIds es))
      ∧ (∀ s : CorrState, ∀ id : String, ∀ ok : Bool, id ∉ s.pending →
          corrStep s (.response id ok) = s ∧ corrStep s (.timerFire id) = s)
      ∧ (∀ s : CorrState, ∀ id : String, ∀ ok : Bool, s.pending.Nodup → id ∈ s.pending →
          corrStep (corrStep s (.response id ok)) (.timerFire id)
              = corrStep s (.response id ok)
            ∧ corrStep (corrStep s (.timerFire id)) (.response id ok)
              = corrStep s (.timerFire id)) := by
  have hinv0 : CorrInv (corrInit b) := List.nodup_nil
  have hdisj0 : ∀ id ∈ invokedIds es, id ∉ usedIds (corrInit b) := by
    intro id _ h
    simp [corrInit, usedIds, settledIds] at h
  obtain ⟨h1, h2, h3⟩ := corrRun_main hinv0 hnd hdisj0
  have hsok : SettledOk (corrRun (corrInit b) es) := by
    refine h3 ?_
    intro p hp
    simp [corrInit] at hp
  refine ⟨List.Nodup.of_append_right h1, hsok, ?_, ?_, ?_⟩
  · intro hpend
    have hused : usedIds (corrRun (corrInit b) es)
        = settledIds (corrRun (corrInit b) es) := by
      unfold usedIds
      rw [hpend]
      rfl
    have hperm := h2
    rw [hused] at hperm
    simpa [corrInit, usedIds, settledIds] using hperm
  · intro s id ok h
    exact ⟨corrStep_response_noop h, corrStep_timerFire_noop h⟩
  · intro s id ok hndp hmem
    have hv1 : (corrStep s (.response id ok)).pending = s.pending.erase id := by
      simp [corrStep, hmem]
    have hv2 : (corrStep s (.timerFire id)).pending = s.pending.erase id := by
      simp [corrStep, hmem]
    have hnm1 : id ∉ (corrStep s (.response id ok)).pending := by
      rw [hv1]
      exact hndp.not_mem_erase
    have hnm2 : id ∉ (corrStep s (.timerFire id)).pending := by
      rw [hv2]
      exact hndp.not_mem_erase
    exact ⟨corrStep_timerFire_noop hnm1, corrStep_response_noop hnm2⟩

/-- Witness for `claim_C1_settled_exactly_once` on the concrete trace
connect, invoke a, invoke b, response a (success), timer b, stale timer a. -/
theorem claim_C1_witness :
    (invokedIds [CorrEvent.connect, CorrEvent.invoke "a", CorrEvent.invoke "b",
        CorrEvent.response "a" true, CorrEvent.timerFire "b",
        CorrEvent.timerFire "a"]).Nodup
      ∧ (settledIds (corrRun (corrInit true)
          [CorrEvent.connect, CorrEvent.invoke "a", CorrEvent.invoke "b",
           CorrEvent.response "a" true, CorrEvent.timerFire "b",
           CorrEvent.timerFire "a"])).Nodup :=
  ⟨by decide,
    (claim_C1_settled_exactly_once true
      [CorrEvent.connect, CorrEvent.invoke "a", CorrEvent.invoke "b",
       CorrEvent.response "a" true, CorrEvent.timerFire "b",
       CorrEvent.timerFire "a"] (by decide)).1⟩

end Meridian
